import Mathlib

/-!
Verification of the github-to-discourse migration tool.

The development shallowly embeds the Go sources:
  * `main.go` — the `process` loop (modes `test`/`migrate`), the checkpoint
    line format written by `saveState`, the `continue`-mode resume pass
    (line parsing, per-URL fold, fallthrough step sequencer), and the final
    stats report.
  * the second driver file (package `main`) — the `dryRun`/`liveRun` run
    modes with their value-receiver stats fields.

Strings are modelled as `List Char` (`Str`); Go's `strings.Split` with a
one-character separator is `splitChar`, `strconv.Atoi` is `atoi?`, and
`fmt.Sprintf` restricted to `%s` verbs (the only verbs used by the
templates) is `goSprintf`, including Go's `%!s(MISSING)` output when a verb
has no corresponding argument.  External collaborators (GitHub/Discourse
HTTP calls, file writes) are oracles supplied through `Env` records, and
each modelled function additionally returns the trace of external calls it
performs and the checkpoint records it writes.
-/

set_option linter.unusedVariables false
set_option maxRecDepth 100000

namespace G2D

/-- Strings of the embedded program, modelled as lists of characters. -/
abbrev Str := List Char

/-- Coercion from Lean string literals into the model's strings. -/
def str (s : String) : Str := s.toList

/-- Go's `strings.Split(s, sep)` for a one-character separator: splits a
string at every occurrence of the separator; always returns at least one
(possibly empty) field. -/
def splitChar (c : Char) : Str → List Str
  | [] => [[]]
  | x :: xs =>
    match splitChar c xs with
    | [] => [[]]
    | h :: t => if x = c then [] :: h :: t else (x :: h) :: t

theorem splitChar_ne_nil (c : Char) (s : Str) : splitChar c s ≠ [] := by
  induction s with
  | nil => simp [splitChar]
  | cons x xs ih =>
    simp only [splitChar]
    rcases h : splitChar c xs with _ | ⟨h₁, t⟩
    · simp
    · by_cases hx : x = c <;> simp [hx]

theorem splitChar_no_sep (c : Char) (xs : Str) (h : c ∉ xs) :
    splitChar c xs = [xs] := by
  induction xs with
  | nil => rfl
  | cons y ys ih =>
    have hy : y ≠ c := fun hyc => h (by simp [hyc])
    have hys : c ∉ ys := fun hm => h (by simp [hm])
    simp [splitChar, ih hys, hy]

theorem splitChar_append (c : Char) (xs ys : Str) (h : c ∉ xs) :
    splitChar c (xs ++ c :: ys) = xs :: splitChar c ys := by
  induction xs with
  | nil =>
    simp only [List.nil_append, splitChar]
    rcases hs : splitChar c ys with _ | ⟨h₁, t⟩
    · exact absurd hs (splitChar_ne_nil c ys)
    · simp
  | cons z zs ih =>
    have hz : z ≠ c := fun hzc => h (by simp [hzc])
    have hzs : c ∉ zs := fun hm => h (by simp [hm])
    simp only [List.cons_append, splitChar, List.append_eq]
    rw [ih hzs]
    simp [hz]

/-- Numeric value of a nonempty all-digit string (helper for `atoi?`). -/
def digitsVal? (s : Str) : Option Nat :=
  if s = [] then none
  else s.foldl (fun acc c =>
    match acc with
    | none => none
    | some n => if c.isDigit then some (n * 10 + (c.toNat - 48)) else none)
    (some 0)

/-- Go's `strconv.Atoi`: optional sign followed by at least one digit;
anything else is an error (`none`). -/
def atoi? : Str → Option Int
  | [] => none
  | '-' :: rest => (digitsVal? rest).map (fun n => -(n : Int))
  | '+' :: rest => (digitsVal? rest).map (fun n => (n : Int))
  | s => (digitsVal? s).map (fun n => (n : Int))

/-- Go's `fmt.Sprintf` restricted to `%s` verbs: each `%s` consumes the next
argument; a `%s` with no remaining argument renders as `%!s(MISSING)`,
exactly as Go's `fmt` package does. -/
def goSubst : Str → List Str → Str
  | [], _ => []
  | '%' :: 's' :: rest, [] => str "%!s(MISSING)" ++ goSubst rest []
  | '%' :: 's' :: rest, a :: args => a ++ goSubst rest args
  | ch :: rest, args => ch :: goSubst rest args

/-- Entry point matching the `fmt.Sprintf(tpl, params...)` call sites. -/
def goSprintf (tpl : Str) (args : List Str) : Str := goSubst tpl args

/-- A GitHub issue as read by the core (`*github.Issue` accessors used by
the sources: `GetHTMLURL`, `GetNumber`, `IsPullRequest`, `GetUpdatedAt`,
`GetUser().GetLogin()`, `GetTitle`, `GetBody`,
`GetRepository().GetOwner().GetLogin()`). Timestamps are integers. -/
structure Issue where
  htmlURL : Str
  number : Int
  pullReq : Bool
  updatedAt : Int
  userLogin : Str
  title : Str
  body : Str
  repoOwnerLogin : Str
  deriving DecidableEq

/-- The `RunStats` / `runStats` counters (identical field sets in both
source files). -/
structure RunStats where
  Processed : Nat
  Stale : Nat
  Active : Nat
  PullRequest : Nat
  deriving DecidableEq

/-- `isStale` from `main.go` (also duplicated in the second file): the
issue's `UpdatedAt` is strictly before the injected three-months-ago
instant (`time.Now().AddDate(0, -3, 0)`). -/
def isStale (threeMonthsAgo : Int) (i : Issue) : Bool :=
  i.updatedAt < threeMonthsAgo

/-- Side-effecting external calls performed by the program, as trace
events. `sleep` records a `time.Sleep` with its duration in nanoseconds. -/
inductive ExtCall where
  | discoursePost (title body : Str)
  | comment (issueURL body : Str)
  | closeIssue (issueURL : Str)
  | lockIssue (issueURL : Str)
  | sleep (ns : Nat)
  deriving DecidableEq

/-- `time.Sleep(time.Millisecond + 1000)` from all three issue loops:
`time.Millisecond` is 10^6 nanoseconds, so the argument is
10^6 + 1000 nanoseconds. -/
def throttleSleepNs : Nat := 1000000 + 1000

/-- Step constant `discourseDone = 1` from `main.go`. -/
def discourseDone : Int := 1

/-- Step constant `commentDone = 2` from `main.go`. -/
def commentDone : Int := 2

/-- Step constant `closeDone = 3` from `main.go`. -/
def closeDone : Int := 3

/-- Step constant `lockDone = 4` from `main.go`. -/
def lockDone : Int := 4

/-- Processing limit `maxCount = 1` from `main.go`. -/
def maxCount : Nat := 1

/-- The `activeTpl` template constant from `main.go` (two `%s` verbs:
author handle and Discourse topic URL). -/
def activeTpl : Str :=
  str "Hi %s! We are migrating our GitHub issues to Discourse (https://discuss.bitrise.io/c/issues/build-issues). From now on, you can track this issue at: %s"

/-- The `staleTpl` template constant from `main.go` (one `%s` verb: the
author handle). -/
def staleTpl : Str :=
  str "Hi %s! We are migrating our GitHub issues to Discourse (https://discuss.bitrise.io/c/issues/build-issues). Because this issue has been inactive for more than three months, we will be closing it. If you feel it is still relevant, please open a ticket on Discourse!"

/-- Decimal digit character (helper for rendering `%d`). -/
def digitChar (n : Nat) : Char := Char.ofNat (48 + n)

/-- Fuel-driven decimal rendering of a natural number (helper). -/
def natDigitsAux : Nat → Nat → Str
  | 0, _ => []
  | fuel + 1, n =>
    if n < 10 then [digitChar n]
    else natDigitsAux fuel (n / 10) ++ [digitChar (n % 10)]

/-- Decimal rendering of a natural number. -/
def natToDigits (n : Nat) : Str := natDigitsAux (n + 1) n

/-- Go's `%d` verb on an `int` value. -/
def intToStr (n : Int) : Str :=
  if n < 0 then '-' :: natToDigits n.natAbs else natToDigits n.natAbs

/-- A checkpoint record as passed to `saveState` in `main.go`:
`(issue HTML URL, step constant, extra)`. -/
structure Chkpt where
  url : Str
  state : Int
  extra : Str
  deriving DecidableEq

/-- The checkpoint log line body built by `saveState` in `main.go`:
`fmt.Sprintf("%s %d %s\n", i.GetHTMLURL(), state, extra)` without the
trailing newline (the newline is the line separator consumed by the
resume pass's split). -/
def fmtChkptLine (url : Str) (state : Int) (extra : Str) : Str :=
  url ++ [' '] ++ intToStr state ++ [' '] ++ extra

/-- The `RestoredIssue` struct from `main.go`. -/
structure RestoredIssue where
  URL : Str
  Owner : Str
  Repo : Str
  IssNum : Int
  Done : Int
  Extra : Str
  deriving DecidableEq

/-- Outcome of handling one checkpoint-log line in `main.go`'s
`continue` branch: the empty-line skip, a Go index-out-of-range panic
(from `fields[1]`, `fields[2]`, or `fragments[3]`/`[4]`/`[6]` on a
too-short line/URL), or a built `RestoredIssue` together with whether a
`"could not read stored state"` message was printed for a failed
`strconv.Atoi`. -/
inductive LineParse where
  | emptySkip
  | panicIndex
  | built (r : RestoredIssue) (reported : Bool)
  deriving DecidableEq

/-- One iteration of the line loop of `main.go`'s `continue` branch
(lines 332-367): skip empty lines; split on spaces; take `fields[0]` as
the URL and slash-fragments 3, 4, 6 of it as owner, repo and issue
number; take `fields[1]` as the step. A failed `Atoi` only prints a
message and leaves the Go zero value `0` in place; a missing index
panics. `extra` is read from `fields[2]` only when the step equals
`discourseDone`. -/
def parseFields : List Str → LineParse
  | [] => .panicIndex
  | url :: restFields =>
    match splitChar '/' url with
    | _f0 :: _f1 :: _f2 :: owner :: repo :: _f5 :: numStr :: _rest =>
      let pnum : Int × Bool :=
        match atoi? numStr with
        | some n => (n, false)
        | none => (0, true)
      match restFields with
      | [] => .panicIndex
      | doneStr :: rest2 =>
        let pdone : Int × Bool :=
          match atoi? doneStr with
          | some d => (d, false)
          | none => (0, true)
        if pdone.1 = discourseDone then
          match rest2 with
          | [] => .panicIndex
          | e :: _ =>
            .built ⟨url, owner, repo, pnum.1, pdone.1, e⟩ (pnum.2 || pdone.2)
        else .built ⟨url, owner, repo, pnum.1, pdone.1, []⟩ (pnum.2 || pdone.2)
    | _ => .panicIndex

/-- Wrapper adding the empty-line skip: `parseFields` runs on the
space-separated fields of a nonempty line. -/
def parseLine (l : Str) : LineParse :=
  if l = [] then .emptySkip else parseFields (splitChar ' ' l)

/-- Projection of a parsed line onto the `(url, step, extra)` triple of a
checkpoint record. -/
def parsedTriple : LineParse → Option (Str × Int × Str)
  | .built r _ => some (r.URL, r.Done, r.Extra)
  | _ => none

/-- Lookup in the `issueStates` map of `main.go`'s `continue` branch,
modelled as an association list keyed by issue URL. -/
def lookupURL (m : List (Str × RestoredIssue)) (u : Str) : Option RestoredIssue :=
  (m.find? (fun p => p.1 = u)).map (fun p => p.2)

/-- In-place update of the stored `Done` field for a key (the Go code
mutates the map value through its pointer, touching only `Done`). -/
def setDone (m : List (Str × RestoredIssue)) (u : Str) (d : Int) :
    List (Str × RestoredIssue) :=
  m.map (fun p => if p.1 = u then (p.1, { p.2 with Done := d }) else p)

/-- The update-or-insert of `main.go` lines 369-377: if the URL is
already present, raise its stored `Done` to the new step when the new
step is larger (all other fields keep the first record's values);
otherwise insert the whole record. -/
def populateMap (m : List (Str × RestoredIssue)) (r : RestoredIssue) :
    List (Str × RestoredIssue) :=
  match lookupURL m r.URL with
  | some i => if r.Done > i.Done then setDone m r.URL r.Done else m
  | none => m ++ [(r.URL, r)]

/-- The whole line pass of the `continue` branch: fold every line into the
map; a line that panics aborts the program (`.error`), otherwise the
final map is produced. Lines that only fail `Atoi` are still inserted
(the code prints and falls through). -/
def parseAll (lines : List Str) : Except Unit (List (Str × RestoredIssue)) :=
  lines.foldl
    (fun acc l =>
      match acc with
      | .error e => .error e
      | .ok m =>
        match parseLine l with
        | .emptySkip => .ok m
        | .panicIndex => .error ()
        | .built r _ => .ok (populateMap m r))
    (.ok [])

/-- The fallthrough `switch i.Done` of `main.go` lines 407-428, for one
restored issue whose live state `iss` was fetched: at `discourseDone` a
comment is posted (stale or active template, author handle filled in,
restored Discourse URL as `extra`) and the `commentDone` checkpoint is
written, then control falls through; at `commentDone` the `close` call is
commented out in the source, so only the `closeDone` checkpoint is
written; at `closeDone` the `lock` call is commented out, so only the
`lockDone` checkpoint is written; at `lockDone` nothing happens.
Errors of `comment`/`saveState` are discarded by the source. Returns the
external calls made and the checkpoints written. -/
def resumeIssueSteps (iss : Issue) (threeMonthsAgo : Int) (done : Int)
    (extra : Str) : List ExtCall × List Chkpt :=
  if done = discourseDone then
    let body :=
      if isStale threeMonthsAgo iss then goSprintf staleTpl [iss.userLogin]
      else goSprintf activeTpl [iss.userLogin, extra]
    ([.comment iss.htmlURL body],
     [⟨iss.htmlURL, commentDone, []⟩, ⟨iss.htmlURL, closeDone, []⟩,
      ⟨iss.htmlURL, lockDone, []⟩])
  else if done = commentDone then
    ([], [⟨iss.htmlURL, closeDone, []⟩, ⟨iss.htmlURL, lockDone, []⟩])
  else if done = closeDone then
    ([], [⟨iss.htmlURL, lockDone, []⟩])
  else
    ([], [])

/-- Oracles for the external collaborators used by `main.go`'s `process`:
the Discourse post (returns the topic URL), the GitHub comment/close/lock
calls, and the checkpoint write performed by `saveState` (a failing write
is the only fatal error of the loop). -/
structure Env where
  discourse : Issue → Except Str Str
  commentRes : Issue → Str → Except Str Unit
  closeRes : Issue → Except Str Unit
  lockRes : Issue → Except Str Unit
  saveRes : Chkpt → Except Str Unit

/-- Loop-control outcome of one iteration of `main.go`'s `process` loop:
go on to the next issue, `break` out of the loop, or return a fatal
error. -/
inductive IterOut where
  | next
  | stop
  | fail (e : Str)
  deriving DecidableEq

/-- One iteration of the `for k, i := range issues` body of `main.go`'s
`process` (lines 94-181): sleep, skip pull requests, `break` when
`stats.Processed == maxCount`, then run the step sequence. External-call
errors are printed and `continue` to the next issue; `saveState` errors
are fatal (`"process: ..."`). The active comment body is
`fmt.Sprintf(activeTpl, url)` — one argument for two verbs — and the
stale body is `fmt.Sprintf(staleTpl)` — no argument for one verb.
Returns (control outcome, stats after the iteration, checkpoints
written, external calls attempted, in order). -/
def processIssue (env : Env) (threeMonthsAgo : Int) (stats : RunStats)
    (i : Issue) : IterOut × RunStats × List Chkpt × List ExtCall :=
  let sl := ExtCall.sleep throttleSleepNs
  if i.pullReq then
    (.next, { stats with PullRequest := stats.PullRequest + 1 }, [], [sl])
  else if stats.Processed = maxCount then
    (.stop, stats, [], [sl])
  else if isStale threeMonthsAgo i = false then
    let stats1 := { stats with Active := stats.Active + 1 }
    match env.discourse i with
    | .error _ => (.next, stats1, [], [sl, .discoursePost i.title i.body])
    | .ok url =>
      let c0 : Chkpt := ⟨i.htmlURL, discourseDone, url⟩
      match env.saveRes c0 with
      | .error e =>
        (.fail (str "process: " ++ e), stats1, [],
         [sl, .discoursePost i.title i.body])
      | .ok _ =>
        let body := goSprintf activeTpl [url]
        match env.commentRes i body with
        | .error _ =>
          (.next, stats1, [c0],
           [sl, .discoursePost i.title i.body, .comment i.htmlURL body])
        | .ok _ =>
          processTail env stats1 i [c0]
            [sl, .discoursePost i.title i.body, .comment i.htmlURL body]
  else
    let stats1 := { stats with Stale := stats.Stale + 1 }
    let body := goSprintf staleTpl []
    match env.commentRes i body with
    | .error _ => (.next, stats1, [], [sl, .comment i.htmlURL body])
    | .ok _ => processTail env stats1 i [] [sl, .comment i.htmlURL body]
where
  /-- The shared tail after a successful comment (`main.go` lines
  155-180): `saveState commentDone`, `close`, `saveState closeDone`,
  `lock`, `saveState lockDone`, `stats.Processed++`. -/
  processTail (env : Env) (stats1 : RunStats) (i : Issue)
      (chs : List Chkpt) (cas : List ExtCall) :
      IterOut × RunStats × List Chkpt × List ExtCall :=
    let c1 : Chkpt := ⟨i.htmlURL, commentDone, []⟩
    match env.saveRes c1 with
    | .error e => (.fail (str "process: " ++ e), stats1, chs, cas)
    | .ok _ =>
      match env.closeRes i with
      | .error _ => (.next, stats1, chs ++ [c1], cas ++ [.closeIssue i.htmlURL])
      | .ok _ =>
        let c2 : Chkpt := ⟨i.htmlURL, closeDone, []⟩
        match env.saveRes c2 with
        | .error e =>
          (.fail (str "process: " ++ e), stats1, chs ++ [c1],
           cas ++ [.closeIssue i.htmlURL])
        | .ok _ =>
          match env.lockRes i with
          | .error _ =>
            (.next, stats1, chs ++ [c1, c2],
             cas ++ [.closeIssue i.htmlURL, .lockIssue i.htmlURL])
          | .ok _ =>
            let c3 : Chkpt := ⟨i.htmlURL, lockDone, []⟩
            match env.saveRes c3 with
            | .error e =>
              (.fail (str "process: " ++ e), stats1, chs ++ [c1, c2],
               cas ++ [.closeIssue i.htmlURL, .lockIssue i.htmlURL])
            | .ok _ =>
              (.next, { stats1 with Processed := stats1.Processed + 1 },
               chs ++ [c1, c2, c3],
               cas ++ [.closeIssue i.htmlURL, .lockIssue i.htmlURL])

/-- The `process` function of `main.go` (lines 92-184): iterate
`processIssue` over the issue list, threading the (pointer-held) stats,
stopping on `break` with the stats so far or on a fatal checkpoint-write
error. Also returns all checkpoints written and external calls made. -/
def process (env : Env) (threeMonthsAgo : Int) (stats : RunStats) :
    List Issue → Except Str RunStats × List Chkpt × List ExtCall
  | [] => (.ok stats, [], [])
  | i :: rest =>
    match processIssue env threeMonthsAgo stats i with
    | (.stop, _, chs, cas) => (.ok stats, chs, cas)
    | (.fail e, _, chs, cas) => (.error e, chs, cas)
    | (.next, s2, chs, cas) =>
      let r := process env threeMonthsAgo s2 rest
      (r.1, chs ++ r.2.1, cas ++ r.2.2)

/-- Bodies of the GitHub comments appearing in a call trace. -/
def commentBodies (l : List ExtCall) : List Str :=
  l.filterMap (fun c =>
    match c with
    | .comment _ b => some b
    | _ => none)

/-- Oracle for `client.Issues.Get` used by the resume loop (an `error`
also stands for a non-2xx response, both of which skip the issue). -/
structure ResumeEnv where
  getIssue : Str → Str → Int → Except Str Issue

/-- The resume loop of `main.go`'s `continue` branch (lines 380-431):
iterate over the restored map (capped at `maxCount` via `k`, which is not
incremented on a skipped fetch), fetch the live issue, and run the
fallthrough sequencer. Fetch errors skip the issue. Returns the calls
made and checkpoints written. -/
def resumeLoop (env : ResumeEnv) (threeMonthsAgo : Int) :
    Nat → List (Str × RestoredIssue) → List ExtCall × List Chkpt
  | _, [] => ([], [])
  | k, (_, i) :: rest =>
    if k = maxCount then ([], [])
    else
      match env.getIssue i.Owner i.Repo i.IssNum with
      | .error _ => resumeLoop env threeMonthsAgo k rest
      | .ok iss =>
        let p := resumeIssueSteps iss threeMonthsAgo i.Done i.Extra
        let r := resumeLoop env threeMonthsAgo (k + 1) rest
        (p.1 ++ r.1, p.2 ++ r.2)

/-- Observable outcome of `main` as modelled: an `os.Exit`, a Go runtime
panic, or the final stats report of lines 439-440. -/
inductive MainOutcome where
  | exited (code : Nat)
  | panicked (msg : Str)
  | reported (stale active processed prs : Nat)
  deriving DecidableEq

/-- The final `fmt.Println("stale: ", stats.Stale, ...)` statements of
`main` (lines 439-440), which dereference the `stats` pointer: a `nil`
pointer panics, otherwise the four counters are reported. -/
def finalReport : Option RunStats → MainOutcome
  | none => .panicked (str "runtime error: invalid memory address or nil pointer dereference")
  | some s => .reported s.Stale s.Active s.Processed s.PullRequest

/-- `main` in `continue` mode (`main.go` lines 321-441): read the state
file (`os.Exit(1)` on failure), split it into lines and fold them into
the restored map (an index panic aborts), run the resume loop, and then
execute the final report. The `stats` pointer declared at line 302 is
never assigned in this branch, so the report receives `none`. -/
def continueModeMain (env : ResumeEnv) (threeMonthsAgo : Int)
    (content : Option Str) : MainOutcome :=
  match content with
  | none => .exited 1
  | some c =>
    match parseAll (splitChar '\n' c) with
    | .error _ => .panicked (str "runtime error: index out of range")
    | .ok m =>
      let _ := resumeLoop env threeMonthsAgo 0 m
      finalReport none

/-- POSIX-level model of an open file: its byte content, the handle's
position, and whether it was opened with `O_APPEND`. -/
structure GoFile where
  data : Str
  pos : Nat
  append : Bool
  deriving DecidableEq

/-- Overwrite-at-position semantics of a plain `write`. -/
def writeAt (d : Str) (pos : Nat) (s : Str) : Str :=
  d.take pos ++ s ++ d.drop (pos + s.length)

/-- A `WriteString` on the handle: with `O_APPEND` every write goes to
the end of the file; without it the write lands at the current position,
overwriting whatever is there. -/
def fwrite (f : GoFile) (s : Str) : GoFile :=
  if f.append then
    { data := f.data ++ s, pos := f.data.length + s.length, append := true }
  else
    { data := writeAt f.data f.pos s, pos := f.pos + s.length, append := false }

/-- `os.OpenFile(stateFile, os.O_APPEND|os.O_WRONLY|os.O_CREATE, 0644)`
from `main.go` line 278: creates the file when absent, truncates
nothing, and puts the handle in append mode. -/
def mainOpenStateFile (existing : Option Str) : GoFile :=
  { data := existing.getD [], pos := 0, append := true }

namespace part000

/-- Step constant `discourseDone = iota` (0) from the second source file;
this file renumbers the steps from 0. -/
def discourseDone : Nat := 0

/-- Step constant `commentDone` (1) from the second source file. -/
def commentDone : Nat := 1

/-- Step constant `closeDone` (2) from the second source file. -/
def closeDone : Nat := 2

/-- Step constant `lockDone` (3) from the second source file. -/
def lockDone : Nat := 3

/-- The checkpoint value handed to `saveState` by `liveRun.process`: a
`restoredIssue` whose `Repo` field is set to the issue's HTML URL, plus
the repository owner's login, the issue number, and the completed step.
(`Extra` is never assigned by this file.) -/
structure Chkpt where
  RepoField : Str
  Owner : Str
  IssNum : Int
  Done : Nat
  deriving DecidableEq

/-- Oracles for the collaborators of `liveRun.process`: `discourse`
(title and body, returning the topic URL), `comment`, `close`, `lock`,
and the checkpoint `saveState` write. -/
structure Env where
  discourse : Str → Str → Except Str Str
  commentRes : Issue → Str → Except Str Unit
  closeRes : Issue → Except Str Unit
  lockRes : Issue → Except Str Unit
  saveRes : Chkpt → Except Str Unit

/-- `dryRun.process` from the second source file. `run dryRun` is a
VALUE receiver, so the increments mutate the method's copy of the
struct; the function returns that copy's stats, which the caller
discards. Pull requests bump `PullRequest`; otherwise active/stale is
classified and `Processed` bumped. No external call site exists in this
method. -/
def dryRun.process (stats : RunStats) (threeMonthsAgo : Int) (i : Issue) :
    RunStats :=
  if i.pullReq then { stats with PullRequest := stats.PullRequest + 1 }
  else if isStale threeMonthsAgo i = false then
    { stats with Active := stats.Active + 1, Processed := stats.Processed + 1 }
  else
    { stats with Stale := stats.Stale + 1, Processed := stats.Processed + 1 }

/-- `dryRun.run` from the second source file: for each issue it invokes
`run.process(i)` — on a copy of the receiver, so the returned update is
discarded — and sleeps. It returns `run.stats`, the receiver's own
never-mutated stats field, and a `nil` error. The trace of sleeps is
also returned. -/
def dryRun.run (stats : RunStats) (threeMonthsAgo : Int) :
    List Issue → (RunStats × Option Str) × List ExtCall
  | [] => ((stats, none), [])
  | i :: rest =>
    let _ := dryRun.process stats threeMonthsAgo i
    let r := dryRun.run stats threeMonthsAgo rest
    (r.1, .sleep throttleSleepNs :: r.2)

/-- `liveRun.process` from the second source file (lines 84-159), on the
method's value-receiver copy of the stats. Returns the copy's stats on
success or the propagated error, together with the checkpoints written
(each after its step's external call succeeded) and the external calls
attempted, in order. The active branch posts the Discourse topic (title
prefixed with the run id when nonempty), checkpoints `discourseDone`,
then both branches comment with the author's handle (and the topic URL
when active), checkpoint `commentDone`, close, checkpoint `closeDone`,
lock, checkpoint `lockDone`, and bump `Processed`. Any external-call
error returns immediately; any `saveState` error returns wrapped as
`"process: ..."`. -/
def liveRun.process (env : Env) (threeMonthsAgo : Int) (runID : Str)
    (stats : RunStats) (i : Issue) :
    Except Str RunStats × List Chkpt × List ExtCall :=
  if i.pullReq then
    (.ok { stats with PullRequest := stats.PullRequest + 1 }, [], [])
  else
    let chkURL := i.htmlURL
    if isStale threeMonthsAgo i = false then
      let stats1 := { stats with Active := stats.Active + 1 }
      let title :=
        if runID = [] then i.title
        else goSprintf (str "[test][%s] %s") [runID, i.title]
      match env.discourse title i.body with
      | .error e => (.error e, [], [.discoursePost title i.body])
      | .ok url =>
        let c0 : Chkpt := ⟨chkURL, i.repoOwnerLogin, i.number, discourseDone⟩
        match env.saveRes c0 with
        | .error e =>
          (.error (str "process: " ++ e), [], [.discoursePost title i.body])
        | .ok _ =>
          liveRun.processTail env stats1 i [c0] [.discoursePost title i.body]
            (goSprintf activeTpl [i.userLogin, url])
    else
      let stats1 := { stats with Stale := stats.Stale + 1 }
      liveRun.processTail env stats1 i [] [] (goSprintf staleTpl [i.userLogin])
where
  /-- The shared tail of `liveRun.process` from the comment call on
  (lines 128-158). -/
  liveRun.processTail (env : Env) (stats1 : RunStats) (i : Issue)
      (chs : List Chkpt) (cas : List ExtCall) (body : Str) :
      Except Str RunStats × List Chkpt × List ExtCall :=
    match env.commentRes i body with
    | .error e => (.error e, chs, cas ++ [.comment i.htmlURL body])
    | .ok _ =>
      let c1 : Chkpt := ⟨i.htmlURL, i.repoOwnerLogin, i.number, commentDone⟩
      match env.saveRes c1 with
      | .error e =>
        (.error (str "process: " ++ e), chs, cas ++ [.comment i.htmlURL body])
      | .ok _ =>
        match env.closeRes i with
        | .error e =>
          (.error e, chs ++ [c1],
           cas ++ [.comment i.htmlURL body, .closeIssue i.htmlURL])
        | .ok _ =>
          let c2 : Chkpt := ⟨i.htmlURL, i.repoOwnerLogin, i.number, closeDone⟩
          match env.saveRes c2 with
          | .error e =>
            (.error (str "process: " ++ e), chs ++ [c1],
             cas ++ [.comment i.htmlURL body, .closeIssue i.htmlURL])
          | .ok _ =>
            match env.lockRes i with
            | .error e =>
              (.error e, chs ++ [c1, c2],
               cas ++ [.comment i.htmlURL body, .closeIssue i.htmlURL,
                       .lockIssue i.htmlURL])
            | .ok _ =>
              let c3 : Chkpt := ⟨i.htmlURL, i.repoOwnerLogin, i.number, lockDone⟩
              match env.saveRes c3 with
              | .error e =>
                (.error (str "process: " ++ e), chs ++ [c1, c2],
                 cas ++ [.comment i.htmlURL body, .closeIssue i.htmlURL,
                         .lockIssue i.htmlURL])
              | .ok _ =>
                (.ok { stats1 with Processed := stats1.Processed + 1 },
                 chs ++ [c1, c2, c3],
                 cas ++ [.comment i.htmlURL body, .closeIssue i.htmlURL,
                         .lockIssue i.htmlURL])

/-- The `for _, i := range issues` loop of `liveRun.run` (lines
187-194): each `run.process(i)` receives a copy of the receiver, so
`stats` passed to `process` is the receiver's unchanged field every
iteration, and a successful iteration's stats update is discarded. A
process error returns `run.stats` (the unchanged field) together with
the error wrapped as `"process issue <url>: <err>"`; otherwise the run
sleeps and continues, and finally returns `(run.stats, nil)`. -/
def liveRun.run (env : Env) (threeMonthsAgo : Int) (runID : Str)
    (stats : RunStats) :
    List Issue → (RunStats × Option Str) × List Chkpt × List ExtCall
  | [] => ((stats, none), [], [])
  | i :: rest =>
    let p := liveRun.process env threeMonthsAgo runID stats i
    match p.1 with
    | .error e =>
      ((stats, some (str "process issue " ++ i.htmlURL ++ str ": " ++ e)),
       p.2.1, p.2.2)
    | .ok _ =>
      let r := liveRun.run env threeMonthsAgo runID stats rest
      (r.1, p.2.1 ++ r.2.1, p.2.2 ++ .sleep throttleSleepNs :: r.2.2)

/-- The checkpoints and calls produced by a list of issues that all
process successfully (the prefix of a run before a failure). -/
def liveRun.okTrace (env : Env) (threeMonthsAgo : Int) (runID : Str)
    (stats : RunStats) : List Issue → List Chkpt × List ExtCall
  | [] => ([], [])
  | i :: rest =>
    let p := liveRun.process env threeMonthsAgo runID stats i
    let r := liveRun.okTrace env threeMonthsAgo runID stats rest
    (p.2.1 ++ r.1, p.2.2 ++ .sleep throttleSleepNs :: r.2)

/-- `os.OpenFile(chkptLog, os.O_RDWR|os.O_CREATE, 0644)` from
`liveRun.run` line 172: creates the file when absent and does not
truncate, but — lacking `O_APPEND` — leaves the handle at position 0
without append semantics. -/
def openCheckpointFile (existing : Option Str) : GoFile :=
  { data := existing.getD [], pos := 0, append := false }

end part000

/-- Modelled from the claim's words (not from the source): the stats the
claim says a dry run returns — the counters equal the number of
pull-request issues, of non-pull-request issues updated within three
months (active), and of the remaining (stale) issues; `Processed` counts
the non-pull-request issues the loop classified. -/
def claimedDryStats (threeMonthsAgo : Int) (issues : List Issue) : RunStats :=
  { Processed := (issues.filter (fun i => !i.pullReq)).length
    Stale := (issues.filter (fun i => !i.pullReq && isStale threeMonthsAgo i)).length
    Active := (issues.filter (fun i => !i.pullReq && !(isStale threeMonthsAgo i))).length
    PullRequest := (issues.filter (fun i => i.pullReq)).length }

/-- Decidable equality for `Except`, used to evaluate run results on
concrete inputs. -/
instance {ε α : Type} [DecidableEq ε] [DecidableEq α] :
    DecidableEq (Except ε α) := fun x y =>
  match x, y with
  | .error a, .error b =>
    if h : a = b then .isTrue (by rw [h])
    else .isFalse (fun hc => h (by cases hc; rfl))
  | .ok a, .ok b =>
    if h : a = b then .isTrue (by rw [h])
    else .isFalse (fun hc => h (by cases hc; rfl))
  | .error _, .ok _ => .isFalse (fun hc => Except.noConfusion hc)
  | .ok _, .error _ => .isFalse (fun hc => Except.noConfusion hc)

/-- Reference instant for concrete evaluations: "three months ago". -/
def tma0 : Int := 100

/-- Fixture: an open issue updated after `tma0` (active), authored by
alice. -/
def issueActive : Issue :=
  ⟨str "https://github.com/own/repo/issues/7", 7, false, 150,
   str "alice", str "Crash on start", str "It crashes", str "own"⟩

/-- Fixture: a pull request. -/
def issuePR : Issue :=
  ⟨str "https://github.com/own/repo/issues/8", 8, true, 150,
   str "bob", str "Fix crash", str "patch", str "own"⟩

/-- Fixture: an issue last updated before `tma0` (stale), authored by
carol. -/
def issueStale : Issue :=
  ⟨str "https://github.com/own/repo/issues/9", 9, false, 10,
   str "carol", str "Old bug", str "very old", str "own"⟩

/-- Environment in which every external call succeeds; Discourse returns
a fixed topic URL. -/
def envOkMain : Env :=
  ⟨fun _ => .ok (str "https://discuss.example/t/42"),
   fun _ _ => .ok (), fun _ => .ok (), fun _ => .ok (), fun _ => .ok ()⟩

/-- C9: the delay between issues is `time.Sleep(time.Millisecond + 1000)`
in all three loops, i.e. 1 001 000 ns — about one millisecond, not
approximately one second (10^9 ns); even one hundred such sleeps stay
under a second. -/
theorem throttle_sleep_duration_millisecond :
    throttleSleepNs = 1001000 ∧ 100 * throttleSleepNs < 1000000000 := by
  decide

/-- C8: a live run (`liveRun.run`) opens the checkpoint log with
`O_RDWR|O_CREATE` and no `O_APPEND`, so with pre-existing content
`"u 2 \n"` the first checkpoint write `"v 0 \n"` lands at position 0 and
replaces the old line instead of extending the file; the previously
existing content is not preserved. By contrast `main.go`'s own
`O_APPEND|O_WRONLY|O_CREATE` open (line 278) extends the file as the
claim describes. -/
theorem liveRun_checkpoint_open_overwrites :
    (fwrite (part000.openCheckpointFile (some (str "u 2 \n"))) (str "v 0 \n")).data
      = str "v 0 \n" ∧
    (fwrite (part000.openCheckpointFile (some (str "u 2 \n"))) (str "v 0 \n")).data.take 5
      ≠ str "u 2 \n" ∧
    (fwrite (mainOpenStateFile (some (str "u 2 \n"))) (str "v 0 \n")).data
      = str "u 2 \n" ++ str "v 0 \n" := by
  decide

/-- C3: resuming an issue restored at `commentDone` writes the
`closeDone` and `lockDone` checkpoints and posts no second comment and
no Discourse topic — but it also performs NO close call and NO lock call
(both are commented out in `main.go` lines 419 and 423): the external
call trace is empty. Resuming at `lockDone` performs no external call
and writes nothing. -/
theorem resume_commentDone_writes_without_calls :
    resumeIssueSteps issueActive tma0 commentDone [] =
      ([], [⟨issueActive.htmlURL, closeDone, []⟩,
            ⟨issueActive.htmlURL, lockDone, []⟩]) ∧
    resumeIssueSteps issueActive tma0 lockDone [] = ([], []) := by
  decide

/-- C6: the malformed line `"abc"` (one space-separated field, URL with a
single slash-fragment) makes the resume pass index out of range — a
panic that aborts the whole pass — instead of being reported and
skipped; and the line `"https://github.com/o/r/issues/x 2"` (non-numeric
issue number) is reported (`true` flag) yet still contributes a restored
issue, with `0` in place of the number, instead of being skipped. -/
theorem parse_malformed_line_not_skipped :
    parseLine (str "abc") = .panicIndex ∧
    parseAll [str "abc"] = .error () ∧
    parseLine (str "https://github.com/o/r/issues/x 2") =
      .built ⟨str "https://github.com/o/r/issues/x", str "o", str "r",
              0, 2, []⟩ true := by
  decide

/-- C2: in `main.go`'s `process`, the active-branch comment body is
`fmt.Sprintf(activeTpl, url)` — the topic URL fills the author slot and
the URL slot renders as `%!s(MISSING)` — and the stale-branch body is
`fmt.Sprintf(staleTpl)` with the author slot rendered as
`%!s(MISSING)`; neither equals the template filled as the claim states
(author handle, and topic URL for the active branch). -/
theorem process_comment_template_misfilled :
    commentBodies (process envOkMain tma0 ⟨0, 0, 0, 0⟩ [issueActive]).2.2 =
      [goSprintf activeTpl [str "https://discuss.example/t/42"]] ∧
    goSprintf activeTpl [str "https://discuss.example/t/42"] ≠
      goSprintf activeTpl [str "alice", str "https://discuss.example/t/42"] ∧
    commentBodies (process envOkMain tma0 ⟨0, 0, 0, 0⟩ [issueStale]).2.2 =
      [goSprintf staleTpl []] ∧
    goSprintf staleTpl [] ≠ goSprintf staleTpl [str "carol"] := by
  decide

/-- C4: a dry run over one pull request, one active and one stale issue
performs no side-effecting external call (the trace holds only the
throttling sleeps), yet returns all-zero stats — `dryRun.process`
increments a value-receiver copy that `dryRun.run` discards — while the
claim's classification counts for the same input are
`(Processed, Stale, Active, PullRequest) = (2, 1, 1, 1)`. -/
theorem dryRun_run_returns_zero_stats :
    (part000.dryRun.run ⟨0, 0, 0, 0⟩ tma0 [issuePR, issueActive, issueStale]).1 =
      (⟨0, 0, 0, 0⟩, none) ∧
    (part000.dryRun.run ⟨0, 0, 0, 0⟩ tma0 [issuePR, issueActive, issueStale]).2 =
      [.sleep throttleSleepNs, .sleep throttleSleepNs, .sleep throttleSleepNs] ∧
    claimedDryStats tma0 [issuePR, issueActive, issueStale] = ⟨2, 1, 1, 1⟩ ∧
    (⟨0, 0, 0, 0⟩ : RunStats) ≠ ⟨2, 1, 1, 1⟩ := by
  decide

theorem le_foldl_max_init (l : List RestoredIssue) (a : Int) :
    a ≤ l.foldl (fun acc r => max acc r.Done) a := by
  induction l generalizing a with
  | nil => exact le_refl a
  | cons r rest ih =>
    exact le_trans (le_max_left a r.Done) (ih (max a r.Done))

theorem le_foldl_max_mem (l : List RestoredIssue) (a : Int) (x : RestoredIssue)
    (hx : x ∈ l) : x.Done ≤ l.foldl (fun acc r => max acc r.Done) a := by
  induction l generalizing a with
  | nil => cases hx
  | cons r rest ih =>
    rcases List.mem_cons.mp hx with h | h
    · subst h
      exact le_trans (le_max_right a x.Done) (le_foldl_max_init rest _)
    · exact ih (max a r.Done) h

theorem foldl_max_mem (l : List RestoredIssue) (a : Int) :
    l.foldl (fun acc r => max acc r.Done) a = a ∨
      l.foldl (fun acc r => max acc r.Done) a ∈ l.map (fun r => r.Done) := by
  induction l generalizing a with
  | nil => exact Or.inl rfl
  | cons r rest ih =>
    rcases ih (max a r.Done) with h | h
    · rcases max_choice a r.Done with hm | hm
      · exact Or.inl (by simp only [List.foldl_cons]; rw [h, hm])
      · refine Or.inr ?_
        simp only [List.foldl_cons, List.map_cons, List.mem_cons]
        exact Or.inl (by rw [h, hm])
    · refine Or.inr ?_
      simp only [List.foldl_cons, List.map_cons, List.mem_cons]
      exact Or.inr h

theorem populate_fold_single (u : Str) (rs : List RestoredIssue)
    (hall : ∀ r ∈ rs, r.URL = u) (x : RestoredIssue) :
    rs.foldl populateMap [(u, x)] =
      [(u, { x with Done := rs.foldl (fun acc r => max acc r.Done) x.Done })] := by
  induction rs generalizing x with
  | nil => simp
  | cons r rest ih =>
    have hr : r.URL = u := hall r (by simp)
    have hrest : ∀ q ∈ rest, q.URL = u := fun q hq => hall q (by simp [hq])
    have hpop : populateMap [(u, x)] r =
        [(u, { x with Done := max x.Done r.Done })] := by
      simp only [populateMap, lookupURL, hr, List.find?]
      by_cases h : r.Done > x.Done
      · rw [max_eq_right (le_of_lt h)]
        simp [h, setDone]
      · rw [max_eq_left (not_lt.mp h)]
        simp [h]
    simp only [List.foldl_cons, hpop, ih hrest]

/-- C5: folding all checkpoint records of one issue URL through the
update-or-insert of `main.go`'s resume pass yields a stored entry whose
`Done` step bounds every record's step from above and is one of the
recorded steps — i.e. the maximum step present, for every ordering of the
records; a lower step arriving after a higher one never regresses it. -/
theorem restore_fold_max_step (u : Str) (r : RestoredIssue)
    (rs : List RestoredIssue) (hall : ∀ x ∈ r :: rs, x.URL = u) :
    ∃ i, lookupURL ((r :: rs).foldl populateMap []) u = some i ∧
      (∀ x ∈ r :: rs, x.Done ≤ i.Done) ∧
      i.Done ∈ (r :: rs).map (fun x => x.Done) := by
  have hr : r.URL = u := hall r (by simp)
  have hrest : ∀ q ∈ rs, q.URL = u := fun q hq => hall q (by simp [hq])
  have h0 : populateMap [] r = [(u, r)] := by
    simp [populateMap, lookupURL, hr, List.find?]
  rw [List.foldl_cons, h0, populate_fold_single u rs hrest r]
  refine ⟨{ r with Done := rs.foldl (fun acc q => max acc q.Done) r.Done },
    ?_, ?_, ?_⟩
  · simp [lookupURL, List.find?]
  · intro x hx
    rcases List.mem_cons.mp hx with h | h
    · subst h
      exact le_foldl_max_init rs x.Done
    · exact le_foldl_max_mem rs r.Done x h
  · rcases foldl_max_mem rs r.Done with h | h
    · simp only [List.map_cons, List.mem_cons]
      exact Or.inl h
    · simp only [List.map_cons, List.mem_cons]
      exact Or.inr h

/-- C5 witness: two out-of-order records for URL `"u"` — `closeDone` (3)
first, then `discourseDone` (1) — fold to a stored step that dominates
both and is among them (namely 3). -/
theorem restore_fold_max_step_witness :
    ∃ i, lookupURL (([⟨str "u", str "o", str "r", 5, closeDone, []⟩,
        ⟨str "u", str "o", str "r", 5, discourseDone, str "x"⟩] :
        List RestoredIssue).foldl populateMap []) (str "u") = some i ∧
      (∀ x ∈ ([⟨str "u", str "o", str "r", 5, closeDone, []⟩,
        ⟨str "u", str "o", str "r", 5, discourseDone, str "x"⟩] :
        List RestoredIssue), x.Done ≤ i.Done) ∧
      i.Done ∈ (([⟨str "u", str "o", str "r", 5, closeDone, []⟩,
        ⟨str "u", str "o", str "r", 5, discourseDone, str "x"⟩] :
        List RestoredIssue)).map (fun x => x.Done) :=
  restore_fold_max_step (str "u") ⟨str "u", str "o", str "r", 5, closeDone, []⟩
    [⟨str "u", str "o", str "r", 5, discourseDone, str "x"⟩] (by decide)

theorem parsedTriple_two_fields (url extra : Str) (ch : Char) (d : Int)
    (a b c ow rp f n : Str) (rest : List Str)
    (hshape : splitChar '/' url = a :: b :: c :: ow :: rp :: f :: n :: rest)
    (hd : atoi? [ch] = some d) :
    parsedTriple (parseFields [url, [ch], extra]) =
      some (url, d, if d = discourseDone then extra else []) := by
  simp only [parseFields, hshape, hd]
  rcases hn : atoi? n with _ | v <;>
    simp only [hn] <;>
    by_cases hdd : d = discourseDone <;>
    simp [hdd, parsedTriple]

theorem splitChar_line (url extra : Str) (ch : Char) (hsp : ' ' ∉ url)
    (hse : ' ' ∉ extra) (hch : ch ≠ ' ') :
    splitChar ' ' (url ++ ' ' :: ch :: ' ' :: extra) = [url, [ch], extra] := by
  rw [splitChar_append ' ' url (ch :: ' ' :: extra) hsp]
  have h2 : ch :: ' ' :: extra = [ch] ++ ' ' :: extra := rfl
  have hns : ' ' ∉ [ch] := by
    intro hmem
    exact hch (List.mem_singleton.mp hmem).symm
  rw [h2, splitChar_append ' ' [ch] extra hns, splitChar_no_sep ' ' extra hse]

/-- C7: round-trip of the checkpoint persistence format. Writing a
record `(url, step, extra)` with `saveState`'s line format
`<issueURL> <stepNumber> <extra>` — where `url` is a well-formed GitHub
issue URL (no space, at least seven slash-fragments), `step` is one of
the four step constants, `extra` contains no space and is empty except
for `discourseDone` — and parsing the line back in the resume pass
recovers exactly the same `(url, step, extra)` triple. -/
theorem checkpoint_line_roundtrip (url extra : Str) (s : Int)
    (hsp : ' ' ∉ url) (hse : ' ' ∉ extra)
    (hshape : ∃ a b c ow rp f n rest,
      splitChar '/' url = a :: b :: c :: ow :: rp :: f :: n :: rest)
    (hs : s = discourseDone ∨ s = commentDone ∨ s = closeDone ∨ s = lockDone)
    (hex : s = discourseDone ∨ extra = []) :
    parsedTriple (parseLine (fmtChkptLine url s extra)) =
      some (url, s, extra) := by
  obtain ⟨a, b, c, ow, rp, f, n, rest, hfr⟩ := hshape
  have hchar : ∃ ch : Char, ch ≠ ' ' ∧ intToStr s = [ch] ∧ atoi? [ch] = some s := by
    rcases hs with h | h | h | h <;> subst h
    · exact ⟨'1', by decide, by decide, by decide⟩
    · exact ⟨'2', by decide, by decide, by decide⟩
    · exact ⟨'3', by decide, by decide, by decide⟩
    · exact ⟨'4', by decide, by decide, by decide⟩
  obtain ⟨ch, hch, hrepr, hval⟩ := hchar
  have hline : fmtChkptLine url s extra = url ++ ' ' :: ch :: ' ' :: extra := by
    simp [fmtChkptLine, hrepr]
  rw [hline, parseLine]
  have hne : ¬ (url ++ ' ' :: ch :: ' ' :: extra = []) := by simp
  rw [if_neg hne, splitChar_line url extra ch hsp hse hch,
    parsedTriple_two_fields url extra ch s a b c ow rp f n rest hfr hval]
  rcases hex with h | h
  · rw [if_pos h]
  · subst h
    by_cases hdd : s = discourseDone <;> simp [hdd]

/-- C7 witness: the concrete record
`("https://github.com/owner/repo/issues/12", discourseDone,
"https://discuss.example/t/42")` round-trips through the log line
format. -/
theorem checkpoint_line_roundtrip_witness :
    parsedTriple (parseLine (fmtChkptLine
        (str "https://github.com/owner/repo/issues/12") discourseDone
        (str "https://discuss.example/t/42"))) =
      some (str "https://github.com/owner/repo/issues/12", discourseDone,
        str "https://discuss.example/t/42") :=
  checkpoint_line_roundtrip (str "https://github.com/owner/repo/issues/12")
    (str "https://discuss.example/t/42") discourseDone (by decide) (by decide)
    ⟨str "https:", [], str "github.com", str "owner", str "repo",
      str "issues", str "12", [], by decide⟩
    (Or.inl rfl) (Or.inl rfl)

/-- Environment in which every external call succeeds except the
Discourse post, which always fails. -/
def envDiscourseFails : part000.Env :=
  ⟨fun _ _ => .error (str "boom"), fun _ _ => .ok (), fun _ => .ok (),
   fun _ => .ok (), fun _ => .ok ()⟩

/-- C1 counterexample: with a stale issue that processes to completion
followed by an active issue whose Discourse post fails, `liveRun.run`
returns all-zero stats — not the stats accumulated so far. The second
conjunct shows the first issue really was fully processed: the
value-receiver copy inside `liveRun.process` ended with
`Processed = 1, Stale = 1`, an update the run loop then discarded. -/
theorem live_run_returns_zero_stats :
    (part000.liveRun.run envDiscourseFails tma0 [] ⟨0, 0, 0, 0⟩
        [issueStale, issueActive]).1 =
      (⟨0, 0, 0, 0⟩,
       some (str "process issue " ++ issueActive.htmlURL ++ str ": " ++
         str "boom")) ∧
    (part000.liveRun.process envDiscourseFails tma0 [] ⟨0, 0, 0, 0⟩
        issueStale).1 = .ok ⟨1, 1, 0, 0⟩ := by
  decide

/-- C1 (amended): in a live run, when an external call fails while
processing issue `i`, `liveRun.process` stops that issue at the failing
step — the checkpoints already written stay as they are and no later
checkpoint or call is added — and `liveRun.run` halts the whole run
right there: the issues after `i` contribute nothing, and the run
returns the error (wrapped as `process issue <url>: <err>`) together
with its stats field, which is the value it started with (the
value-receiver copies mean per-issue increments never reach it), not
the per-issue accumulation the original claim describes. -/
theorem live_run_halts_on_error (env : part000.Env) (tma : Int) (rid : Str)
    (stats0 : RunStats) (pre post : List Issue) (i : Issue) (e : Str)
    (hpre : ∀ j ∈ pre,
      ∃ s, (part000.liveRun.process env tma rid stats0 j).1 = .ok s)
    (hfail : (part000.liveRun.process env tma rid stats0 i).1 = .error e) :
    part000.liveRun.run env tma rid stats0 (pre ++ i :: post) =
      ((stats0, some (str "process issue " ++ i.htmlURL ++ str ": " ++ e)),
       (part000.liveRun.okTrace env tma rid stats0 pre).1 ++
         (part000.liveRun.process env tma rid stats0 i).2.1,
       (part000.liveRun.okTrace env tma rid stats0 pre).2 ++
         (part000.liveRun.process env tma rid stats0 i).2.2) := by
  induction pre with
  | nil =>
    simp only [List.nil_append, part000.liveRun.run, part000.liveRun.okTrace]
    rw [hfail]
  | cons j pre' ih =>
    obtain ⟨s, hs⟩ := hpre j (by simp)
    have hpre' : ∀ q ∈ pre',
        ∃ t, (part000.liveRun.process env tma rid stats0 q).1 = .ok t :=
      fun q hq => hpre q (by simp [hq])
    simp only [List.cons_append, part000.liveRun.run, part000.liveRun.okTrace]
    rw [hs]
    dsimp only []
    simp only [List.append_eq]
    rw [ih hpre']
    simp [List.append_assoc]

/-- C1 witness: a one-issue run whose Discourse post fails halts with the
wrapped error and the unchanged initial stats. -/
theorem live_run_halts_on_error_witness :
    part000.liveRun.run envDiscourseFails tma0 [] ⟨0, 0, 0, 0⟩
        ([] ++ issueActive :: []) =
      ((⟨0, 0, 0, 0⟩,
        some (str "process issue " ++ issueActive.htmlURL ++ str ": " ++
          str "boom")),
       (part000.liveRun.okTrace envDiscourseFails tma0 [] ⟨0, 0, 0, 0⟩ []).1 ++
         (part000.liveRun.process envDiscourseFails tma0 [] ⟨0, 0, 0, 0⟩
           issueActive).2.1,
       (part000.liveRun.okTrace envDiscourseFails tma0 [] ⟨0, 0, 0, 0⟩ []).2 ++
         (part000.liveRun.process envDiscourseFails tma0 [] ⟨0, 0, 0, 0⟩
           issueActive).2.2) :=
  live_run_halts_on_error envDiscourseFails tma0 [] ⟨0, 0, 0, 0⟩ [] []
    issueActive (str "boom") (by simp) rfl

/-- Resume environment whose issue fetch always fails, so every restored
issue is skipped (irrelevant to the final report). -/
def envResume : ResumeEnv := ⟨fun _ _ _ => .error (str "fetch")⟩

/-- C10: whenever the `continue` branch runs to the end of `main` — the
state file was read and no checkpoint line made the line loop panic —
the final stats-printing statements dereference the never-assigned
`stats` pointer and the program panics instead of reporting aggregate
stats, for every resume environment and every such file content. -/
theorem continue_mode_nil_stats_panic (env : ResumeEnv) (tma : Int)
    (c : Str) (m : List (Str × RestoredIssue))
    (h : parseAll (splitChar '\n' c) = .ok m) :
    continueModeMain env tma (some c) =
      .panicked (str "runtime error: invalid memory address or nil pointer dereference") := by
  simp only [continueModeMain, h, finalReport]

/-- C10 witness: with an empty state file the continue branch completes
and the run ends in the nil-pointer panic. -/
theorem continue_mode_nil_stats_panic_witness :
    continueModeMain envResume tma0 (some []) =
      .panicked (str "runtime error: invalid memory address or nil pointer dereference") :=
  continue_mode_nil_stats_panic envResume tma0 [] [] rfl

end G2D
